import Mathlib

/-!
Verification of the singularity-build-bot scripts.

The repository contains two generations of the same tool,
`populate_build.py` and `get_container_list.py`, plus the auxiliary
`remove-old-builds.py`.  This file embeds the pure logic of those scripts:
the HTML link extractors (`ContainerImageParser.handle_starttag`), the
reconcilers (`get_new_images`), the retry policy applied to every HTTP
fetch (`tenacity.retry` with `stop_after_attempt(5)`,
`retry_if_exception_type(httpx.HTTPError)`, `reraise=True`), the paginated
repository-name fetch (`QuayImageFetcher._fetch_names`), the depot fetch
loop (`SingularityImageFetcher`), and the old-build grouping logic of
`remove-old-builds.py`.  Network responses are modelled by explicit
oracles, and file writes performed by the code are modelled as data.
-/

/-- Python `str.startswith`: the candidate prefix compared on the
character sequence.  `startswith s p` is `s.startswith(p)`. -/
def startswith (s p : String) : Bool :=
  p.data.isPrefixOf s.data

/-- Split a character list at the first occurrence of the pattern `pat`,
returning the part strictly before the match and the part strictly after
it.  `none` when the pattern does not occur. -/
def splitFirst (pat : List Char) : List Char → Option (List Char × List Char)
  | [] => if pat.isEmpty then some ([], []) else none
  | c :: cs =>
    if pat.isPrefixOf (c :: cs) then some ([], List.drop pat.length (c :: cs))
    else
      match splitFirst pat cs with
      | some (pre, post) => some (c :: pre, post)
      | none => none

/-- Python `pat in s` substring containment. -/
def containsSub (s pat : String) : Bool :=
  (splitFirst pat.data s.data).isSome

/-- Python `s.replace(pat, repl, 1)`: replace the first occurrence of
`pat` by `repl`, the whole string unchanged when `pat` does not occur. -/
def replaceFirst (s pat repl : String) : String :=
  match splitFirst pat.data s.data with
  | some (pre, post) => ⟨pre ++ repl.data ++ post⟩
  | none => s

/-- Lexicographic comparison of character lists by code point: exactly
Python's string comparison (shorter prefixes first). -/
def charLe : List Char → List Char → Bool
  | [], _ => true
  | _ :: _, [] => false
  | a :: as, b :: bs => if a < b then true else if b < a then false else charLe as bs

/-- Python `a <= b` on strings. -/
def strLe (a b : String) : Bool :=
  charLe a.data b.data

/-- The string order as a relation, for use with `List.insertionSort`. -/
def SLe (a b : String) : Prop :=
  strLe a b = true

instance : DecidableRel SLe := fun a b =>
  inferInstanceAs (Decidable (strLe a b = true))

theorem charLe_cons_iff {a b : Char} {as bs : List Char} :
    charLe (a :: as) (b :: bs) = true ↔ a < b ∨ (a = b ∧ charLe as bs = true) := by
  show (if a < b then true else if b < a then false else charLe as bs) = true ↔ _
  split_ifs with h1 h2
  · simp [h1]
  · simp only [Bool.false_eq_true, false_iff]
    rintro (hc | ⟨rfl, -⟩)
    · exact h1 hc
    · exact lt_irrefl _ h2
  · have heq : a = b := le_antisymm (not_lt.mp h2) (not_lt.mp h1)
    constructor
    · intro h
      exact Or.inr ⟨heq, h⟩
    · rintro (hc | ⟨-, h⟩)
      · exact absurd hc h1
      · exact h

theorem charLe_refl (l : List Char) : charLe l l = true := by
  induction l with
  | nil => rfl
  | cons a as ih => exact charLe_cons_iff.mpr (Or.inr ⟨rfl, ih⟩)

theorem charLe_total (a b : List Char) : charLe a b = true ∨ charLe b a = true := by
  induction a generalizing b with
  | nil => exact Or.inl rfl
  | cons x xs ih =>
    cases b with
    | nil => exact Or.inr rfl
    | cons y ys =>
      rcases lt_trichotomy x y with h | h | h
      · exact Or.inl (charLe_cons_iff.mpr (Or.inl h))
      · subst h
        rcases ih ys with h' | h'
        · exact Or.inl (charLe_cons_iff.mpr (Or.inr ⟨rfl, h'⟩))
        · exact Or.inr (charLe_cons_iff.mpr (Or.inr ⟨rfl, h'⟩))
      · exact Or.inr (charLe_cons_iff.mpr (Or.inl h))

theorem charLe_trans {a b c : List Char} (hab : charLe a b = true)
    (hbc : charLe b c = true) : charLe a c = true := by
  induction a generalizing b c with
  | nil => rfl
  | cons x xs ih =>
    cases b with
    | nil => simp [charLe] at hab
    | cons y ys =>
      cases c with
      | nil => simp [charLe] at hbc
      | cons z zs =>
        rcases charLe_cons_iff.mp hab with h1 | ⟨rfl, h1⟩ <;>
          rcases charLe_cons_iff.mp hbc with h2 | ⟨rfl, h2⟩
        · exact charLe_cons_iff.mpr (Or.inl (lt_trans h1 h2))
        · exact charLe_cons_iff.mpr (Or.inl h1)
        · exact charLe_cons_iff.mpr (Or.inl h2)
        · exact charLe_cons_iff.mpr (Or.inr ⟨rfl, ih h1 h2⟩)

theorem charLe_antisymm {a b : List Char} (hab : charLe a b = true)
    (hba : charLe b a = true) : a = b := by
  induction a generalizing b with
  | nil =>
    cases b with
    | nil => rfl
    | cons y ys => simp [charLe] at hba
  | cons x xs ih =>
    cases b with
    | nil => simp [charLe] at hab
    | cons y ys =>
      rcases charLe_cons_iff.mp hab with h1 | ⟨rfl, h1⟩ <;>
        rcases charLe_cons_iff.mp hba with h2 | ⟨h2, h3⟩
      · exact absurd h2 (lt_asymm h1)
      · exact absurd h1 (by rw [h2]; exact lt_irrefl x)
      · exact absurd h2 (lt_irrefl x)
      · exact congrArg (x :: ·) (ih h1 h3)

instance : IsTotal String SLe :=
  ⟨fun a b => charLe_total a.data b.data⟩

instance : IsTrans String SLe :=
  ⟨fun _ _ _ hab hbc => charLe_trans hab hbc⟩

instance : IsRefl String SLe :=
  ⟨fun a => charLe_refl a.data⟩

instance : IsAntisymm String SLe :=
  ⟨fun a b hab hba => by
    cases a with
    | mk da =>
      cases b with
      | mk db => exact congrArg String.mk (charLe_antisymm hab hba)⟩

/-- Python `sorted` on strings: lexicographic ascending by code point. -/
def sortStr (l : List String) : List String :=
  List.insertionSort SLe l

namespace PopulateBuild

/-- Embeds `ContainerImageParser.handle_starttag` of `populate_build.py`
(lines 82-90): on an anchor tag, every `href` attribute whose value
contains `%3A` contributes the value with the first `%3A` replaced by
`:`; every other attribute or tag is ignored.  `images` is the parser
state `self._images` before the event. -/
def handle_starttag (images : List String) (tag : String)
    (attrs : List (String × String)) : List String :=
  if tag ≠ "a" then images
  else
    attrs.foldl
      (fun acc p =>
        if p.1 ≠ "href" then acc
        else if containsSub p.2 "%3A" then acc ++ [replaceFirst p.2 "%3A" ":"]
        else acc)
      images

/-- The images collected by a fresh `ContainerImageParser` after feeding a
document.  The HTML tokenization performed by Python's `html.parser` is
external to the repository; a document is represented by its sequence of
start-tag events `(tag, attrs)`. -/
def feed (events : List (String × List (String × String))) : List String :=
  events.foldl (fun acc ev => handle_starttag acc ev.1 ev.2) []

/-- One file write performed by the script: target path and the lines
written (`log_images` writes one image per line). -/
structure ReconcilerResult where
  images : List String
  writes : List (String × List String)
deriving DecidableEq

/-- Embeds `get_new_images` of `populate_build.py` (lines 284-308)
together with its `log_images` side effect:
`diff = sorted(frozenset(quay) - frozenset(singularity))` is written to
`log_file`, then the deny list removes every image starting with some
entry, the survivors are sorted, and the loop partitions them into
non-`bioconductor` images followed by `bioconductor` images (the loop
appends in order, which is the two order-preserving filters). -/
def get_new_images_run (quay_images singularity_images denylist : List String)
    (log_file : String) : ReconcilerResult :=
  let diff := sortStr ((quay_images.dedup).filter (fun i => i ∉ singularity_images))
  let result := sortStr
    (diff.filter (fun image => !(denylist.any (fun entry => startswith image entry))))
  let others := result.filter (fun img => !(startswith img "bioconductor"))
  let bioconductor := result.filter (fun img => startswith img "bioconductor")
  { images := others ++ bioconductor, writes := [(log_file, diff)] }

/-- The list returned by `get_new_images` (default log file path). -/
def get_new_images (quay_images singularity_images denylist : List String) :
    List String :=
  (get_new_images_run quay_images singularity_images denylist ".diff.log").images

end PopulateBuild

namespace GetContainerList

/-- Embeds `ContainerImageParser.handle_starttag` of
`get_container_list.py` (lines 70-77): on an anchor tag, every `href`
attribute whose value contains a raw `:` is appended unchanged. -/
def handle_starttag (images : List String) (tag : String)
    (attrs : List (String × String)) : List String :=
  if tag ≠ "a" then images
  else
    attrs.foldl
      (fun acc p =>
        if p.1 ≠ "href" then acc
        else if containsSub p.2 ":" then acc ++ [p.2]
        else acc)
      images

/-- The images collected by a fresh `ContainerImageParser` of
`get_container_list.py` after feeding a document, represented by its
start-tag events. -/
def feed (events : List (String × List (String × String))) : List String :=
  events.foldl (fun acc ev => handle_starttag acc ev.1 ev.2) []

/-- Embeds `get_new_images` of `get_container_list.py` (lines 236-250):
the set difference filtered by the deny list and sorted; no grouping and
no file write. -/
def get_new_images (quay_images singularity_images denylist : List String) :
    List String :=
  sortStr
    (((quay_images.dedup).filter (fun i => i ∉ singularity_images)).filter
      (fun image => !(denylist.any (fun entry => startswith image entry))))

end GetContainerList

/-- Outcome of a single attempt of an HTTP call, from the point of view of
the `tenacity.retry` decorator: a parsed value, an `httpx.HTTPError`
(transport error, timeout, or `raise_for_status` on a 4xx/5xx response),
or any other exception. -/
inductive AttemptResult (α : Type) where
  | ok (value : α)
  | httpError
  | otherError
deriving DecidableEq

/-- Result of a retried call together with the number of requests issued. -/
inductive FetchOutcome (α : Type) where
  | success (value : α) (requests : Nat)
  | httpFailure (requests : Nat)
  | otherFailure (requests : Nat)
deriving DecidableEq

/-- The number of requests issued by a retried call. -/
def FetchOutcome.requests : FetchOutcome α → Nat
  | .success _ n => n
  | .httpFailure n => n
  | .otherFailure n => n

/-- One round of the `tenacity.retry` loop: `oracle i` is the outcome of
attempt number `i` (0-based), `idx` the current attempt number, and the
second argument the number of attempts still allowed (`stop_after_attempt`
budget remaining).  An `httpError` is retried while budget remains and
re-raised (`reraise=True`) on the last allowed attempt; any other
exception propagates immediately (`retry_if_exception_type(httpx.HTTPError)`). -/
def tenacityRetryGo (oracle : Nat → AttemptResult α) (idx : Nat) :
    Nat → FetchOutcome α
  | 0 => .httpFailure idx
  | 1 =>
    match oracle idx with
    | .ok v => .success v (idx + 1)
    | .httpError => .httpFailure (idx + 1)
    | .otherError => .otherFailure (idx + 1)
  | n + 2 =>
    match oracle idx with
    | .ok v => .success v (idx + 1)
    | .httpError => tenacityRetryGo oracle (idx + 1) (n + 1)
    | .otherError => .otherFailure (idx + 1)

/-- The retry policy shared by every HTTP fetch in both scripts:
`tenacity.retry(wait=wait_random_exponential(), stop=stop_after_attempt(stop),
retry=retry_if_exception_type(httpx.HTTPError), reraise=True)`.  The
randomized backoff only affects timing, never which attempts happen. -/
def tenacityRetry (stop : Nat) (oracle : Nat → AttemptResult α) : FetchOutcome α :=
  tenacityRetryGo oracle 0 stop

/-- `RepositoryKind` of both scripts. -/
inductive RepositoryKind where
  | image
deriving DecidableEq

/-- `RepositoryState` of both scripts. -/
inductive RepositoryState where
  | NORMAL
deriving DecidableEq

/-- The `Repository` pydantic model of both scripts.  The Python field
`namespace` is a Lean keyword and is rendered `namespace_val`. -/
structure Repository where
  namespace_val : String
  name : String
  is_public : Bool
  kind : RepositoryKind
  state : RepositoryState
deriving DecidableEq

/-- The `RepositoryListResponse` pydantic model of both scripts: one page
of the paginated `repository` listing endpoint. -/
structure RepositoryListResponse where
  repositories : List Repository
  next_page : Option String
deriving DecidableEq

/-- The `SingleRepositoryResponse` pydantic model of both scripts: the
repository fields plus its tag names (the code iterates over the keys of
the `tags` dictionary). -/
structure SingleRepositoryResponse extends Repository where
  tags : List String
deriving DecidableEq

/-- `QuayImageFetcher._fetch_repository_list` of both scripts: one page
fetch under the retry policy.  `oracle i` is the outcome of attempt `i`
(GET `repository`, `raise_for_status`, pydantic parse). -/
def fetch_repository_list (oracle : Nat → AttemptResult RepositoryListResponse) :
    FetchOutcome RepositoryListResponse :=
  tenacityRetry 5 oracle

/-- `QuayImageFetcher._fetch_single_repository` of both scripts
(`populate_build.py` lines 216-230, `get_container_list.py` lines
180-193): one per-repository fetch under the retry policy. -/
def fetch_single_repository (oracle : Nat → AttemptResult SingleRepositoryResponse) :
    FetchOutcome SingleRepositoryResponse :=
  tenacityRetry 5 oracle

/-- The pagination loop of `QuayImageFetcher._fetch_names` of both scripts
(`populate_build.py` lines 123-140, `get_container_list.py` lines
107-123).  `server c` is the parsed response to a successful page request
whose `next_page` query parameter is `c` (`none` on the first request).
`fuel` bounds the number of loop iterations after the first request so the
embedding is total; the accumulators carry the names fetched so far and
the reversed list of issued requests, identified by their `next_page`
parameter.  Returns `none` only when the fuel is exhausted. -/
def fetch_names_go (server : Option String → RepositoryListResponse) :
    Nat → RepositoryListResponse → List String → List (Option String) →
      Option (List String × List (Option String))
  | fuel, repos, names, requests =>
    match repos.next_page with
    | none => some (names, requests.reverse)
    | some cursor =>
      match fuel with
      | 0 => none
      | fuel' + 1 =>
        let repos' := server (some cursor)
        fetch_names_go server fuel' repos'
          (names ++ repos'.repositories.map Repository.name)
          (some cursor :: requests)

/-- `QuayImageFetcher._fetch_names` of both scripts, on a server whose
page requests succeed: issue the first request without `next_page`, then
keep requesting with `next_page` set to the returned cursor until a page
carries no cursor. -/
def fetch_names (server : Option String → RepositoryListResponse) (fuel : Nat) :
    Option (List String × List (Option String)) :=
  let repos := server none
  fetch_names_go server fuel repos (repos.repositories.map Repository.name) [none]

/-- An HTTP response: status code and body text. -/
structure Response where
  status_code : Nat
  text : String
deriving DecidableEq

/-- `httpx.Response.raise_for_status` raises exactly on the 4xx and 5xx
status ranges. -/
def is_error_status (status : Nat) : Bool :=
  400 ≤ status && status < 600

namespace PopulateBuild

/-- One attempt of `SingularityImageFetcher._fetch_images` of
`populate_build.py` (lines 263-275): GET the URL, `raise_for_status`,
return the body.  There is no 404 special case: a 404 raises. -/
def fetch_images_attempt (resp : Response) : AttemptResult (Option String) :=
  if is_error_status resp.status_code then .httpError
  else .ok (some resp.text)

/-- `SingularityImageFetcher._fetch_images` of `populate_build.py` under
the retry policy; `net i` is the response received on attempt `i`. -/
def fetch_images (net : Nat → Response) : FetchOutcome (Option String) :=
  tenacityRetry 5 (fun i => fetch_images_attempt (net i))

/-- The URL loop of `SingularityImageFetcher.fetch_all` of
`populate_build.py` (lines 234-261), with the HTML extraction abstracted
as `extract` (a fresh parser fed the body; the body contributes images
only when the returned text is truthy, that is, not empty).  `network u`
is the attempt oracle for URL `u`.  A fetch failure propagates and aborts
the whole loop (`none`). -/
def fetch_all_go (extract : String → List String) (network : String → Nat → Response) :
    List String → List String → Option (List String)
  | [], acc => some acc
  | url :: rest, acc =>
    match fetch_images (network url) with
    | .success v _ =>
      let contribution :=
        match v with
        | some body => if body = "" then [] else extract body
        | none => []
      fetch_all_go extract network rest (acc ++ contribution)
    | _ => none

/-- `SingularityImageFetcher.fetch_all` of `populate_build.py`. -/
def fetch_all (extract : String → List String) (network : String → Nat → Response)
    (urls : List String) : Option (List String) :=
  fetch_all_go extract network urls []

end PopulateBuild

namespace GetContainerList

/-- One attempt of `SingularityImageFetcher._fetch_images` of
`get_container_list.py` (lines 220-233): a 404 response returns `None`
before `raise_for_status` is reached, so it is neither an error nor
retried; any other 4xx/5xx raises. -/
def fetch_images_attempt (resp : Response) : AttemptResult (Option String) :=
  if resp.status_code = 404 then .ok none
  else if is_error_status resp.status_code then .httpError
  else .ok (some resp.text)

/-- `SingularityImageFetcher._fetch_images` of `get_container_list.py`
under the retry policy; `net i` is the response received on attempt `i`. -/
def fetch_images (net : Nat → Response) : FetchOutcome (Option String) :=
  tenacityRetry 5 (fun i => fetch_images_attempt (net i))

/-- The URL loop of `SingularityImageFetcher.fetch_all` of
`get_container_list.py` (lines 196-218), with the HTML extraction
abstracted as `extract`.  A `None` or empty body is falsy and contributes
zero images; a fetch failure propagates and aborts the whole loop. -/
def fetch_all_go (extract : String → List String) (network : String → Nat → Response) :
    List String → List String → Option (List String)
  | [], acc => some acc
  | url :: rest, acc =>
    match fetch_images (network url) with
    | .success v _ =>
      let contribution :=
        match v with
        | some body => if body = "" then [] else extract body
        | none => []
      fetch_all_go extract network rest (acc ++ contribution)
    | _ => none

/-- `SingularityImageFetcher.fetch_all` of `get_container_list.py`. -/
def fetch_all (extract : String → List String) (network : String → Nat → Response)
    (urls : List String) : Option (List String) :=
  fetch_all_go extract network urls []

end GetContainerList

namespace RemoveOldBuilds

/-- The sort key of `remove-old-builds.py` line 33:
`v.sort(key=lambda x: (x[1], x[0]))` orders the `(build_string,
build_number)` pairs by build number first and build string second. -/
def BuildLe (x y : String × Int) : Prop :=
  x.2 < y.2 ∨ (x.2 = y.2 ∧ SLe x.1 y.1)

instance : DecidableRel BuildLe := fun x y =>
  inferInstanceAs (Decidable (x.2 < y.2 ∨ (x.2 = y.2 ∧ SLe x.1 y.1)))

/-- `v.sort(key=lambda x: (x[1], x[0]))` of `remove-old-builds.py`. -/
def sortBuilds (v : List (String × Int)) : List (String × Int) :=
  List.insertionSort BuildLe v

/-- The entry retained by one iteration of the loop over `image_dict`
(lines 27-43): after sorting, `v.pop()` removes the last element, which
stays on disk. -/
def retainedBuild (v : List (String × Int)) : Option (String × Int) :=
  (sortBuilds v).getLast?

/-- The name reconstruction of `remove-old-builds.py` line 38:
`f'{k}--{build_string}_{build_number}'`, where the build number is
formatted back from the parsed integer (so a listed `pkg--h1_00`
reconstructs as `pkg--h1_0`). -/
def reconstructName (k : String) (e : String × Int) : String :=
  k ++ "--" ++ e.1 ++ "_" ++ toString e.2

/-- The emission loop of `remove-old-builds.py` lines 37-43 over the
entries left after the `pop`: each entry's reconstructed name is checked
against the file system (`os.path.exists`, the oracle `fs`); an existing
name is appended to `image_to_archive` and printed, a missing one makes
the script abort via `sys.exit` (`none`) without emitting the rest. -/
def emitGroup (fs : String → Bool) (k : String) :
    List (String × Int) → List String → Option (List String)
  | [], acc => some acc
  | e :: rest, acc =>
    if fs (reconstructName k e) then
      emitGroup fs k rest (acc ++ [reconstructName k e])
    else none

/-- One iteration of the loop over `image_dict` (lines 27-43) for the
group with base name `k` and parsed `(build_string, build_number)`
entries `v` (the directory entries sharing the base before the last
`--`): an empty group is skipped, otherwise the group is sorted, the
last element popped (retained), and the remaining entries emitted
through the existence check.  `none` is the `sys.exit` abort. -/
def processGroup (fs : String → Bool) (k : String)
    (v : List (String × Int)) : Option (List String) :=
  if v = [] then some []
  else emitGroup fs k ((sortBuilds v).dropLast) []

end RemoveOldBuilds

/-- The ordering policy in the words of the specification: partition the
deny-filtered set difference into the images not named with the
`bioconductor` prefix and those named with it, sort each group
lexicographically ascending by the full `name:tag` string, and
concatenate leading group then trailing group.  Stated independently of
the code's single-sort-then-stable-partition implementation, for
comparison with it. -/
def computeNewImagesSpecOrder (quay_images singularity_images denylist : List String) :
    List String :=
  let filtered := ((quay_images.dedup).filter (fun i => i ∉ singularity_images)).filter
    (fun image => !(denylist.any (fun entry => startswith image entry)))
  sortStr (filtered.filter (fun img => !(startswith img "bioconductor"))) ++
    sortStr (filtered.filter (fun img => startswith img "bioconductor"))

/-- First page of a concrete three-page pagination scenario. -/
def demoPage1 : RepositoryListResponse :=
  ⟨[⟨"biocontainers", "abc", true, .image, .NORMAL⟩,
    ⟨"biocontainers", "def", true, .image, .NORMAL⟩], some "c1"⟩

/-- Second page of the scenario, reached with cursor `c1`. -/
def demoPage2 : RepositoryListResponse :=
  ⟨[⟨"biocontainers", "ghi", true, .image, .NORMAL⟩], some "c2"⟩

/-- Third and final page of the scenario, reached with cursor `c2`. -/
def demoPage3 : RepositoryListResponse :=
  ⟨[⟨"biocontainers", "jkl", true, .image, .NORMAL⟩], none⟩

/-- A server realizing the three-page scenario. -/
def demoServer (c : Option String) : RepositoryListResponse :=
  if c = some "c1" then demoPage2 else if c = some "c2" then demoPage3 else demoPage1

/-- The cursor chain followed by the pagination loop: starting from the
current page `p`, the remaining pages are obtained by requesting each
carried cursor in turn, and the final page carries no cursor. -/
def ChainFrom (server : Option String → RepositoryListResponse) :
    RepositoryListResponse → List RepositoryListResponse → Prop
  | p, [] => p.next_page = none
  | p, q :: rest => ∃ c, p.next_page = some c ∧ server (some c) = q ∧ ChainFrom server q rest

theorem sortStr_perm (l : List String) : List.Perm (sortStr l) l :=
  List.perm_insertionSort SLe l

theorem mem_sortStr {a : String} {l : List String} : a ∈ sortStr l ↔ a ∈ l :=
  (sortStr_perm l).mem_iff

theorem sortStr_sorted (l : List String) : List.Sorted SLe (sortStr l) :=
  List.sorted_insertionSort SLe l

theorem sortStr_filter (p : String → Bool) (l : List String) :
    (sortStr l).filter p = sortStr (l.filter p) :=
  List.eq_of_perm_of_sorted
    (((sortStr_perm l).filter p).trans (sortStr_perm (l.filter p)).symm)
    (List.Pairwise.sublist (List.filter_sublist _) (sortStr_sorted l))
    (sortStr_sorted (l.filter p))

theorem sortStr_idem (l : List String) : sortStr (sortStr l) = sortStr l :=
  List.Sorted.insertionSort_eq (sortStr_sorted l)

theorem sortStr_nodup {l : List String} (h : l.Nodup) : (sortStr l).Nodup :=
  ((sortStr_perm l).nodup_iff).mpr h

/-- The reconciler of `populate_build.py`, rewritten as the two
order-preserving filters of one sorted deny-filtered difference. -/
theorem pb_get_new_images_eq (q s d : List String) :
    PopulateBuild.get_new_images q s d =
      (sortStr (((q.dedup).filter (fun i => i ∉ s)).filter
          (fun image => !(d.any (fun entry => startswith image entry))))).filter
        (fun img => !(startswith img "bioconductor")) ++
      (sortStr (((q.dedup).filter (fun i => i ∉ s)).filter
          (fun image => !(d.any (fun entry => startswith image entry))))).filter
        (fun img => startswith img "bioconductor") := by
  show
    (sortStr ((sortStr ((q.dedup).filter (fun i => i ∉ s))).filter
        (fun image => !(d.any (fun entry => startswith image entry))))).filter
      (fun img => !(startswith img "bioconductor")) ++
    (sortStr ((sortStr ((q.dedup).filter (fun i => i ∉ s))).filter
        (fun image => !(d.any (fun entry => startswith image entry))))).filter
      (fun img => startswith img "bioconductor") = _
  rw [sortStr_filter (fun image => !(d.any (fun entry => startswith image entry)))
        ((q.dedup).filter (fun i => i ∉ s)),
      sortStr_idem (((q.dedup).filter (fun i => i ∉ s)).filter
        (fun image => !(d.any (fun entry => startswith image entry))))]

/-- The stable partition into non-`bioconductor` and `bioconductor`
images keeps exactly the elements of the partitioned list. -/
theorem filter_partition_mem (F : List String) (img : String) :
    img ∈ F.filter (fun x => !(startswith x "bioconductor")) ++
      F.filter (fun x => startswith x "bioconductor") ↔ img ∈ F := by
  simp only [List.mem_append, List.mem_filter, Bool.not_eq_true']
  constructor
  · rintro (⟨h, -⟩ | ⟨h, -⟩) <;> exact h
  · intro h
    cases hbio : startswith img "bioconductor" with
    | false => exact Or.inl ⟨h, rfl⟩
    | true => exact Or.inr ⟨h, rfl⟩

theorem mem_gcl_get_new_images {q s d : List String} {img : String} :
    img ∈ GetContainerList.get_new_images q s d ↔
      img ∈ q ∧ img ∉ s ∧ ∀ e ∈ d, startswith img e = false := by
  unfold GetContainerList.get_new_images
  rw [mem_sortStr]
  simp only [List.mem_filter, List.mem_dedup, decide_eq_true_eq, Bool.not_eq_true',
    List.any_eq_false, Bool.not_eq_true, and_assoc]

theorem mem_pb_get_new_images {q s d : List String} {img : String} :
    img ∈ PopulateBuild.get_new_images q s d ↔
      img ∈ q ∧ img ∉ s ∧ ∀ e ∈ d, startswith img e = false := by
  rw [pb_get_new_images_eq, filter_partition_mem]
  exact mem_gcl_get_new_images

theorem tenacityRetryGo_ok {α : Type} {oracle : Nat → AttemptResult α} {idx n : Nat}
    {v : α} (h : oracle idx = .ok v) :
    tenacityRetryGo oracle idx (n + 1) = .success v (idx + 1) := by
  cases n with
  | zero => simp [tenacityRetryGo, h]
  | succ m => simp [tenacityRetryGo, h]

theorem tenacityRetryGo_http_step {α : Type} {oracle : Nat → AttemptResult α}
    {idx n : Nat} (h : oracle idx = .httpError) :
    tenacityRetryGo oracle idx (n + 2) = tenacityRetryGo oracle (idx + 1) (n + 1) := by
  simp [tenacityRetryGo, h]

theorem tenacityRetryGo_http_last {α : Type} {oracle : Nat → AttemptResult α}
    {idx : Nat} (h : oracle idx = .httpError) :
    tenacityRetryGo oracle idx 1 = .httpFailure (idx + 1) := by
  simp [tenacityRetryGo, h]

theorem tenacityRetryGo_other {α : Type} {oracle : Nat → AttemptResult α}
    {idx n : Nat} (h : oracle idx = .otherError) :
    tenacityRetryGo oracle idx (n + 1) = .otherFailure (idx + 1) := by
  cases n with
  | zero => simp [tenacityRetryGo, h]
  | succ m => simp [tenacityRetryGo, h]

theorem tenacityRetryGo_requests_le {α : Type} (oracle : Nat → AttemptResult α) :
    ∀ n idx, (tenacityRetryGo oracle idx n).requests ≤ idx + n := by
  intro n
  induction n using Nat.strong_induction_on with
  | _ n ih =>
    intro idx
    match n with
    | 0 => simp [tenacityRetryGo, FetchOutcome.requests]
    | 1 =>
      cases h : oracle idx <;>
        simp [tenacityRetryGo, h, FetchOutcome.requests]
    | m + 2 =>
      cases h : oracle idx with
      | ok v =>
        rw [tenacityRetryGo_ok h]
        simp [FetchOutcome.requests]
      | httpError =>
        rw [tenacityRetryGo_http_step h]
        have := ih (m + 1) (by omega) (idx + 1)
        omega
      | otherError =>
        rw [tenacityRetryGo_other h]
        simp [FetchOutcome.requests]

theorem tenacityRetryGo_http_all {α : Type} {oracle : Nat → AttemptResult α} :
    ∀ n idx, (∀ i, i < idx + (n + 1) → oracle i = .httpError) →
      tenacityRetryGo oracle idx (n + 1) = .httpFailure (idx + (n + 1)) := by
  intro n
  induction n with
  | zero =>
    intro idx h
    rw [tenacityRetryGo_http_last (h idx (by omega))]
  | succ m ih =>
    intro idx h
    rw [tenacityRetryGo_http_step (h idx (by omega))]
    rw [ih (idx + 1) (fun i hi => h i (by omega))]
    congr 1
    omega

/-- The four facts of the retry policy, for a `stop_after_attempt(5)`
retried call with attempt oracle `oracle`: at most 5 requests; transient
failure twice then success returns the value with exactly 3 requests;
failure on all allowed attempts re-raises after exactly 5 requests; an
exception that is not an `httpx.HTTPError` propagates without retry. -/
theorem tenacityRetry5_facts {α : Type} (oracle : Nat → AttemptResult α) (v : α) :
    (tenacityRetry 5 oracle).requests ≤ 5 ∧
    (oracle 0 = .httpError → oracle 1 = .httpError → oracle 2 = .ok v →
      tenacityRetry 5 oracle = .success v 3) ∧
    ((∀ i, i < 5 → oracle i = .httpError) → tenacityRetry 5 oracle = .httpFailure 5) ∧
    (oracle 0 = .otherError → tenacityRetry 5 oracle = .otherFailure 1) := by
  refine ⟨?_, ?_, ?_, ?_⟩
  · have := tenacityRetryGo_requests_le oracle 5 0
    simpa [tenacityRetry] using this
  · intro h0 h1 h2
    show tenacityRetryGo oracle 0 5 = _
    rw [show (5 : Nat) = 3 + 2 from rfl, tenacityRetryGo_http_step h0]
    rw [show (3 : Nat) + 1 = 2 + 2 from rfl, tenacityRetryGo_http_step h1]
    rw [show (2 : Nat) + 1 = 2 + 1 from rfl, tenacityRetryGo_ok h2]
  · intro h
    show tenacityRetryGo oracle 0 5 = _
    rw [show (5 : Nat) = 4 + 1 from rfl,
      tenacityRetryGo_http_all 4 0 (fun i hi => h i (by omega))]
  · intro h0
    show tenacityRetryGo oracle 0 5 = _
    rw [show (5 : Nat) = 4 + 1 from rfl, tenacityRetryGo_other h0]

/-- Invariant of the pagination loop: starting at the current page `p`
with the chain of remaining pages `rest`, the loop appends every page's
repository names in order and issues one request per remaining page,
identified by the cursor carried by the preceding page. -/
theorem fetch_names_go_spec (server : Option String → RepositoryListResponse) :
    ∀ (rest : List RepositoryListResponse) (p : RepositoryListResponse)
      (names : List String) (reqs : List (Option String)) (fuel : Nat),
      ChainFrom server p rest → rest.length ≤ fuel →
      fetch_names_go server fuel p names reqs =
        some (names ++ (rest.map (fun q => q.repositories.map Repository.name)).flatten,
          reqs.reverse ++ (p :: rest).dropLast.map RepositoryListResponse.next_page) := by
  intro rest
  induction rest with
  | nil =>
    intro p names reqs fuel hchain hfuel
    simp [fetch_names_go, show p.next_page = none from hchain]
  | cons q rest' ih =>
    intro p names reqs fuel hchain hfuel
    obtain ⟨c, hnp, hserver, hchain'⟩ := hchain
    cases fuel with
    | zero => simp at hfuel
    | succ f =>
      rw [fetch_names_go, hnp]
      simp only []
      rw [hserver]
      rw [ih q (names ++ q.repositories.map Repository.name) (some c :: reqs) f
        hchain' (by simp at hfuel; omega)]
      simp [List.dropLast_cons₂, hnp, List.append_assoc]

/-- A 404 on the first attempt of `get_container_list.py`'s depot page
fetch yields `None` with a single request and no retry. -/
theorem gcl_attempt_404 {r : Response} (h : r.status_code = 404) :
    GetContainerList.fetch_images_attempt r = .ok none := by
  unfold GetContainerList.fetch_images_attempt
  rw [h]
  rfl

theorem gcl_fetch_images_404 {net : Nat → Response} (h : (net 0).status_code = 404) :
    GetContainerList.fetch_images net = .success none 1 := by
  show tenacityRetryGo (fun i => GetContainerList.fetch_images_attempt (net i)) 0 5 = _
  rw [show (5 : Nat) = 4 + 1 from rfl]
  exact tenacityRetryGo_ok (gcl_attempt_404 h)

/-- A 404 response makes one attempt of `populate_build.py`'s depot page
fetch raise, because `raise_for_status` is reached with no 404 check. -/
theorem pb_attempt_404 {r : Response} (h : r.status_code = 404) :
    PopulateBuild.fetch_images_attempt r = .httpError := by
  unfold PopulateBuild.fetch_images_attempt
  rw [h]
  rfl

theorem pb_fetch_images_404 {net : Nat → Response}
    (h : ∀ i, (net i).status_code = 404) :
    PopulateBuild.fetch_images net = .httpFailure 5 := by
  show tenacityRetryGo (fun i => PopulateBuild.fetch_images_attempt (net i)) 0 5 = _
  rw [show (5 : Nat) = 4 + 1 from rfl,
    tenacityRetryGo_http_all 4 0 (fun i _ => pb_attempt_404 (h i))]

/-- In `get_container_list.py`'s depot loop, a URL answered 404 on the
first attempt contributes nothing and the loop proceeds exactly as if
the URL were absent. -/
theorem gcl_fetch_all_skip (extract : String → List String)
    (network : String → Nat → Response) (post : List String) {u : String}
    (h404 : (network u 0).status_code = 404) :
    ∀ (pre : List String) (acc : List String),
      GetContainerList.fetch_all_go extract network (pre ++ u :: post) acc =
        GetContainerList.fetch_all_go extract network (pre ++ post) acc := by
  intro pre
  induction pre with
  | nil =>
    intro acc
    show GetContainerList.fetch_all_go extract network (u :: post) acc = _
    rw [GetContainerList.fetch_all_go, gcl_fetch_images_404 h404]
    simp
  | cons w pre' ih =>
    intro acc
    cases hw : GetContainerList.fetch_images (network w) with
    | success v n =>
      simp only [List.cons_append, GetContainerList.fetch_all_go, hw]
      exact ih _
    | httpFailure n =>
      simp only [List.cons_append, GetContainerList.fetch_all_go, hw]
    | otherFailure n =>
      simp only [List.cons_append, GetContainerList.fetch_all_go, hw]

/-- In `populate_build.py`'s depot loop, a URL that keeps answering 404
fails its fetch after the retries, aborting the whole loop. -/
theorem pb_fetch_all_fail (extract : String → List String)
    (network : String → Nat → Response) (post : List String) {u : String}
    (h404 : ∀ i, (network u i).status_code = 404) :
    ∀ (pre : List String) (acc : List String),
      PopulateBuild.fetch_all_go extract network (pre ++ u :: post) acc = none := by
  intro pre
  induction pre with
  | nil =>
    intro acc
    show PopulateBuild.fetch_all_go extract network (u :: post) acc = none
    rw [PopulateBuild.fetch_all_go, pb_fetch_images_404 h404]
  | cons w pre' ih =>
    intro acc
    cases hw : PopulateBuild.fetch_images (network w) with
    | success v n =>
      simp only [List.cons_append, PopulateBuild.fetch_all_go, hw]
      exact ih _
    | httpFailure n =>
      simp only [List.cons_append, PopulateBuild.fetch_all_go, hw]
    | otherFailure n =>
      simp only [List.cons_append, PopulateBuild.fetch_all_go, hw]

instance : IsTotal (String × Int) RemoveOldBuilds.BuildLe :=
  ⟨fun x y => by
    rcases lt_trichotomy x.2 y.2 with h | h | h
    · exact Or.inl (Or.inl h)
    · rcases charLe_total x.1.data y.1.data with h' | h'
      · exact Or.inl (Or.inr ⟨h, h'⟩)
      · exact Or.inr (Or.inr ⟨h.symm, h'⟩)
    · exact Or.inr (Or.inl h)⟩

instance : IsTrans (String × Int) RemoveOldBuilds.BuildLe :=
  ⟨fun x y z hxy hyz => by
    rcases hxy with h1 | ⟨h1, h1'⟩ <;> rcases hyz with h2 | ⟨h2, h2'⟩
    · exact Or.inl (lt_trans h1 h2)
    · exact Or.inl (by rw [← h2]; exact h1)
    · exact Or.inl (by rw [h1]; exact h2)
    · exact Or.inr ⟨h1.trans h2, charLe_trans h1' h2'⟩⟩

instance : IsAntisymm (String × Int) RemoveOldBuilds.BuildLe :=
  ⟨fun x y hxy hyx => by
    rcases hxy with h1 | ⟨h1, h1'⟩ <;> rcases hyx with h2 | ⟨h2, h2'⟩
    · exact absurd h2 (lt_asymm h1)
    · rw [h2] at h1
      exact absurd h1 (lt_irrefl _)
    · rw [h1] at h2
      exact absurd h2 (lt_irrefl _)
    · have hs : x.1 = y.1 := by
        cases hx1 : x.1 with
        | mk dx =>
          cases hy1 : y.1 with
          | mk dy =>
            rw [hx1, hy1] at h1'
            rw [hx1, hy1] at h2'
            exact congrArg String.mk (charLe_antisymm h1' h2')
      exact Prod.ext hs h1⟩

instance : IsRefl (String × Int) RemoveOldBuilds.BuildLe :=
  ⟨fun x => Or.inr ⟨rfl, charLe_refl x.1.data⟩⟩

theorem sortBuilds_perm (v : List (String × Int)) :
    List.Perm (RemoveOldBuilds.sortBuilds v) v :=
  List.perm_insertionSort RemoveOldBuilds.BuildLe v

theorem sortBuilds_sorted (v : List (String × Int)) :
    List.Sorted RemoveOldBuilds.BuildLe (RemoveOldBuilds.sortBuilds v) :=
  List.sorted_insertionSort RemoveOldBuilds.BuildLe v

/-- When every reconstructed name passes the existence check, the
emission loop emits exactly the reconstructed names of its entries, in
order. -/
theorem emitGroup_all_exist (fs : String → Bool) (k : String) :
    ∀ (l : List (String × Int)) (acc : List String),
      (∀ x ∈ l, fs (RemoveOldBuilds.reconstructName k x) = true) →
      RemoveOldBuilds.emitGroup fs k l acc =
        some (acc ++ l.map (RemoveOldBuilds.reconstructName k)) := by
  intro l
  induction l with
  | nil =>
    intro acc h
    simp [RemoveOldBuilds.emitGroup]
  | cons e rest ih =>
    intro acc h
    rw [RemoveOldBuilds.emitGroup, if_pos (h e (List.mem_cons_self e rest)),
      ih (acc ++ [RemoveOldBuilds.reconstructName k e])
        (fun x hx => h x (List.mem_cons_of_mem e hx))]
    simp


/-- Maximality property of the sort-and-pop pattern: for a sorted
permutation `s` of a duplicate-free nonempty group `v`, the last element
of `s` is the maximum of `v`, and dropping it leaves exactly the other
elements. -/
theorem sorted_last_spec (v s : List (String × Int)) (hperm : List.Perm s v)
    (hsort : List.Sorted RemoveOldBuilds.BuildLe s) (hnd : v.Nodup)
    (hne : v ≠ []) :
    ∃ m, s.getLast? = some m ∧ m ∈ v ∧ (∀ x ∈ v, RemoveOldBuilds.BuildLe x m) ∧
      s.dropLast.Nodup ∧ (∀ x, x ∈ s.dropLast ↔ x ∈ v ∧ x ≠ m) ∧
      s.dropLast.length + 1 = v.length := by
  have hsne : s ≠ [] := by
    intro h
    rw [h] at hperm
    exact hne (hperm.symm.eq_nil)
  have hsplit := List.dropLast_append_getLast hsne
  obtain ⟨m, hm⟩ : ∃ m, s.getLast hsne = m := ⟨_, rfl⟩
  rw [hm] at hsplit
  have hnds : s.Nodup := (hperm.nodup_iff).mpr hnd
  have hmnotin : m ∉ s.dropLast := by
    have hnds' := hnds
    rw [← hsplit] at hnds'
    intro hmem
    exact (List.nodup_append.mp hnds').2.2 hmem (List.mem_singleton_self _)
  have hothers : ∀ x ∈ v, x ≠ m → x ∈ s.dropLast := by
    intro x hx hxm
    have hxs : x ∈ s := hperm.mem_iff.mpr hx
    rw [← hsplit] at hxs
    rcases List.mem_append.mp hxs with h1 | h2
    · exact h1
    · exact absurd (List.mem_singleton.mp h2) hxm
  refine ⟨m, hm ▸ List.getLast?_eq_getLast_of_ne_nil hsne, ?_, ?_, ?_, ?_, ?_⟩
  · exact hperm.mem_iff.mp (hm ▸ List.getLast_mem hsne)
  · intro x hx
    have hxs : x ∈ s := hperm.mem_iff.mpr hx
    rw [← hsplit] at hxs
    have hsort' := hsort
    rw [← hsplit] at hsort'
    rcases List.mem_append.mp hxs with h1 | h2
    · exact (List.pairwise_append.mp hsort').2.2 x h1 _ (List.mem_singleton_self _)
    · rw [List.mem_singleton.mp h2]
      exact IsRefl.refl _
  · exact List.Nodup.sublist (List.dropLast_sublist s) hnds
  · intro x
    constructor
    · intro hx
      have hxs : x ∈ s := (List.dropLast_sublist s).mem hx
      refine ⟨hperm.mem_iff.mp hxs, ?_⟩
      intro hxm
      rw [hxm] at hx
      exact hmnotin hx
    · intro hx
      exact hothers x hx.1 hx.2
  · have hlen : s.length = v.length := hperm.length_eq
    have hdl : s.dropLast.length = s.length - 1 := List.length_dropLast s
    have hpos : 0 < s.length := List.length_pos.mpr hsne
    omega

/-- Claim C1: for every registry inventory, depot inventory, and deny
list, the list returned by `get_new_images` (in both scripts) contains no
element of the depot inventory, contains no element whose string starts
with any deny-list entry, and contains no duplicates. -/
theorem claim1_reconciler_invariants (quay sing deny : List String) :
    (∀ img ∈ PopulateBuild.get_new_images quay sing deny, img ∉ sing) ∧
    (∀ img ∈ PopulateBuild.get_new_images quay sing deny,
      ∀ e ∈ deny, startswith img e = false) ∧
    (PopulateBuild.get_new_images quay sing deny).Nodup ∧
    (∀ img ∈ GetContainerList.get_new_images quay sing deny, img ∉ sing) ∧
    (∀ img ∈ GetContainerList.get_new_images quay sing deny,
      ∀ e ∈ deny, startswith img e = false) ∧
    (GetContainerList.get_new_images quay sing deny).Nodup := by
  refine ⟨?_, ?_, ?_, ?_, ?_, ?_⟩
  · intro img h
    exact (mem_pb_get_new_images.mp h).2.1
  · intro img h
    exact (mem_pb_get_new_images.mp h).2.2
  · rw [pb_get_new_images_eq]
    have hF : (sortStr (((quay.dedup).filter (fun i => i ∉ sing)).filter
        (fun image => !(deny.any (fun entry => startswith image entry))))).Nodup :=
      sortStr_nodup (((List.nodup_dedup quay).filter _).filter _)
    refine List.Nodup.append (hF.filter _) (hF.filter _) ?_
    intro a ha1 ha2
    have h1 := (List.mem_filter.mp ha1).2
    have h2 := (List.mem_filter.mp ha2).2
    rw [Bool.not_eq_true'] at h1
    rw [h2] at h1
    exact absurd h1 (by decide)
  · intro img h
    exact (mem_gcl_get_new_images.mp h).2.1
  · intro img h
    exact (mem_gcl_get_new_images.mp h).2.2
  · exact sortStr_nodup (((List.nodup_dedup quay).filter _).filter _)

/-- Witness for C1: the concrete conclusions at a small input, obtained by
applying the theorem itself. -/
theorem claim1_reconciler_invariants_witness :
    ("samtools:1.9" ∉ (["present:1"] : List String)) ∧
    startswith "samtools:1.9" "deny" = false :=
  ⟨(claim1_reconciler_invariants ["samtools:1.9", "present:1"] ["present:1"]
      ["deny"]).1 "samtools:1.9" (by decide),
   (claim1_reconciler_invariants ["samtools:1.9", "present:1"] ["present:1"]
      ["deny"]).2.1 "samtools:1.9" (by decide) "deny" (by decide)⟩

/-- Claim C2 counterexample: `get_container_list.py`'s reconciler returns
the plain lexicographic order on the spec's own example, not the
bioconductor-deferred order the claim requires of the reconciler. -/
theorem claim2_ordering_counterexample :
    GetContainerList.get_new_images
        ["zeta:1", "alpha:2", "bioconductor-x:1", "bioconductor-a:2"] [] [] =
      ["alpha:2", "bioconductor-a:2", "bioconductor-x:1", "zeta:1"] ∧
    GetContainerList.get_new_images
        ["zeta:1", "alpha:2", "bioconductor-x:1", "bioconductor-a:2"] [] [] ≠
      ["alpha:2", "zeta:1", "bioconductor-a:2", "bioconductor-x:1"] := by
  decide

/-- Claim C2 as amended: `populate_build.py`'s reconciler partitions the
filtered difference into the non-`bioconductor` group followed by the
`bioconductor` group, each sorted lexicographically ascending by the full
`name:tag` string, and reproduces the claimed concrete output;
`get_container_list.py`'s reconciler instead returns the filtered
difference in one plain lexicographic order. -/
theorem claim2_ordering_amended :
    (∀ quay sing deny, PopulateBuild.get_new_images quay sing deny =
      computeNewImagesSpecOrder quay sing deny) ∧
    PopulateBuild.get_new_images
        ["zeta:1", "alpha:2", "bioconductor-x:1", "bioconductor-a:2"] [] [] =
      ["alpha:2", "zeta:1", "bioconductor-a:2", "bioconductor-x:1"] ∧
    GetContainerList.get_new_images
        ["zeta:1", "alpha:2", "bioconductor-x:1", "bioconductor-a:2"] [] [] =
      ["alpha:2", "bioconductor-a:2", "bioconductor-x:1", "zeta:1"] := by
  refine ⟨?_, by decide, by decide⟩
  intro q s d
  rw [pb_get_new_images_eq, sortStr_filter, sortStr_filter]
  rfl

/-- Claim C3 counterexample: neither script's extractor supports both
separator encodings.  `populate_build.py`'s extractor yields nothing from
a raw-colon `href`, and `get_container_list.py`'s yields nothing from a
percent-encoded one. -/
theorem claim3_link_extractor_counterexample :
    PopulateBuild.feed [("a", [("href", "samtools:1.9")])] = [] ∧
    PopulateBuild.feed [("a", [("href", "samtools:1.9")])] ≠ ["samtools:1.9"] ∧
    GetContainerList.feed [("a", [("href", "samtools%3A1.9")])] = [] ∧
    GetContainerList.feed [("a", [("href", "samtools%3A1.9")])] ≠ ["samtools:1.9"] := by
  decide

/-- Claim C3 as amended: each script's extractor supports exactly one
encoding.  `populate_build.py` decodes the first `%3A` to a colon and
ignores raw-colon values; `get_container_list.py` accepts raw-colon
values unchanged and ignores percent-encoded ones; neither yields
anything for `../`. -/
theorem claim3_link_extractor_amended :
    PopulateBuild.feed [("a", [("href", "samtools%3A1.9")])] = ["samtools:1.9"] ∧
    PopulateBuild.feed [("a", [("href", "samtools:1.9")])] = [] ∧
    PopulateBuild.feed [("a", [("href", "../")])] = [] ∧
    GetContainerList.feed [("a", [("href", "samtools:1.9")])] = ["samtools:1.9"] ∧
    GetContainerList.feed [("a", [("href", "samtools%3A1.9")])] = [] ∧
    GetContainerList.feed [("a", [("href", "../")])] = [] := by
  decide

/-- Claim C4 counterexample: `populate_build.py`'s depot fetcher has no
404 special case, so a depot URL answering 404 is retried five times and
then aborts the whole fetch instead of contributing zero images. -/
theorem claim4_depot_404_counterexample :
    PopulateBuild.fetch_all (fun _ => []) (fun _ _ => ⟨404, ""⟩)
        ["https://depot.example.org/singularity/new/"] = none ∧
    PopulateBuild.fetch_all (fun _ => []) (fun _ _ => ⟨404, ""⟩)
        ["https://depot.example.org/singularity/new/"] ≠ some [] ∧
    (PopulateBuild.fetch_images (fun _ => ⟨404, ""⟩)).requests = 5 := by
  decide

/-- Claim C4 as amended: `get_container_list.py`'s depot fetcher treats a
404 as zero images with a single request, no retry, and the loop behaves
as if the URL were absent; `populate_build.py`'s depot fetcher instead
fails the whole fetch when a URL keeps answering 404. -/
theorem claim4_depot_404_amended (extract : String → List String)
    (network : String → Nat → Response) (pre post : List String) (u : String) :
    ((network u 0).status_code = 404 →
      GetContainerList.fetch_images (network u) = .success none 1 ∧
      GetContainerList.fetch_all extract network (pre ++ u :: post) =
        GetContainerList.fetch_all extract network (pre ++ post)) ∧
    ((∀ i, (network u i).status_code = 404) →
      PopulateBuild.fetch_all extract network (pre ++ u :: post) = none) := by
  constructor
  · intro h404
    exact ⟨gcl_fetch_images_404 h404,
      gcl_fetch_all_skip extract network post h404 pre []⟩
  · intro h404
    exact pb_fetch_all_fail extract network post h404 pre []

/-- Witness for C4 as amended, at a two-URL depot whose pages answer 404. -/
theorem claim4_depot_404_witness :
    (GetContainerList.fetch_images (fun _ => ⟨404, ""⟩) =
        FetchOutcome.success none 1 ∧
      GetContainerList.fetch_all (fun _ => []) (fun _ _ => ⟨404, ""⟩) ["u", "v"] =
        GetContainerList.fetch_all (fun _ => []) (fun _ _ => ⟨404, ""⟩) ["v"]) ∧
    PopulateBuild.fetch_all (fun _ => []) (fun _ _ => ⟨404, ""⟩) ["u", "v"] = none :=
  ⟨(claim4_depot_404_amended (fun _ => []) (fun _ _ => ⟨404, ""⟩) [] ["v"] "u").1 rfl,
   (claim4_depot_404_amended (fun _ => []) (fun _ _ => ⟨404, ""⟩) [] ["v"] "u").2
     (fun _ => rfl)⟩

/-- Claim C5: every retried HTTP call (page fetch, per-repository fetch,
depot page fetch) uses the same `stop_after_attempt(5)` policy embedded
as `tenacityRetry 5`: it issues at most 5 requests, a call failing
transiently on the first two attempts and succeeding on the third
returns the value with exactly 3 requests, a call failing on all 5
attempts re-raises with exactly 5 requests, and a non-HTTP exception
propagates without retry. -/
theorem claim5_retry_policy (α : Type) (oracle : Nat → AttemptResult α) (v : α) :
    (tenacityRetry 5 oracle).requests ≤ 5 ∧
    (oracle 0 = .httpError → oracle 1 = .httpError → oracle 2 = .ok v →
      tenacityRetry 5 oracle = .success v 3) ∧
    ((∀ i, i < 5 → oracle i = .httpError) →
      tenacityRetry 5 oracle = .httpFailure 5) ∧
    (oracle 0 = .otherError → tenacityRetry 5 oracle = .otherFailure 1) ∧
    (∀ o : Nat → AttemptResult RepositoryListResponse,
      fetch_repository_list o = tenacityRetry 5 o) ∧
    (∀ o : Nat → AttemptResult SingleRepositoryResponse,
      fetch_single_repository o = tenacityRetry 5 o) ∧
    (∀ net : Nat → Response, PopulateBuild.fetch_images net =
      tenacityRetry 5 (fun i => PopulateBuild.fetch_images_attempt (net i))) ∧
    (∀ net : Nat → Response, GetContainerList.fetch_images net =
      tenacityRetry 5 (fun i => GetContainerList.fetch_images_attempt (net i))) := by
  obtain ⟨h1, h2, h3, h4⟩ := tenacityRetry5_facts oracle v
  exact ⟨h1, h2, h3, h4, fun _ => rfl, fun _ => rfl, fun _ => rfl, fun _ => rfl⟩

/-- Witness for C5: two transient failures then a success return the
value with exactly 3 requests. -/
theorem claim5_retry_policy_witness :
    tenacityRetry 5 (fun i => if i < 2 then AttemptResult.httpError
        else AttemptResult.ok (some "payload")) =
      FetchOutcome.success (some "payload") 3 :=
  (claim5_retry_policy (Option String)
      (fun i => if i < 2 then AttemptResult.httpError
        else AttemptResult.ok (some "payload"))
      (some "payload")).2.1 (by decide) (by decide) (by decide)

/-- Claim C6: on a paginated response sequence whose pages carry cursors
with the last page carrying none, `_fetch_names` issues exactly one
request per page — the first without `next_page`, each further one with
`next_page` set to the cursor of the preceding page — and returns the
concatenation of all pages' repository names in page order. -/
theorem claim6_pagination (server : Option String → RepositoryListResponse)
    (pages : List RepositoryListResponse) (p : RepositoryListResponse)
    (rest : List RepositoryListResponse) (fuel : Nat)
    (hpages : pages = p :: rest) (hfirst : server none = p)
    (hchain : ChainFrom server p rest) (hfuel : rest.length ≤ fuel) :
    fetch_names server fuel =
      some ((pages.map (fun q => q.repositories.map Repository.name)).flatten,
        none :: pages.dropLast.map RepositoryListResponse.next_page) ∧
    (none :: pages.dropLast.map RepositoryListResponse.next_page).length =
      pages.length := by
  subst hpages
  constructor
  · show fetch_names_go server fuel (server none)
      ((server none).repositories.map Repository.name) [none] = _
    rw [hfirst]
    rw [fetch_names_go_spec server rest p (p.repositories.map Repository.name)
      [none] fuel hchain hfuel]
    simp
  · simp

/-- Witness for C6: the concrete three-page scenario yields all three
pages' names in order with exactly 3 requests. -/
theorem claim6_pagination_witness :
    fetch_names demoServer 2 =
      some ((([demoPage1, demoPage2, demoPage3].map
          (fun q => q.repositories.map Repository.name)).flatten),
        none :: [demoPage1, demoPage2, demoPage3].dropLast.map
          RepositoryListResponse.next_page) ∧
    (none :: [demoPage1, demoPage2, demoPage3].dropLast.map
        RepositoryListResponse.next_page).length =
      [demoPage1, demoPage2, demoPage3].length :=
  claim6_pagination demoServer [demoPage1, demoPage2, demoPage3] demoPage1
    [demoPage2, demoPage3] 2 rfl (by decide)
    ⟨"c1", rfl, by decide, "c2", rfl, by decide,
      (rfl : demoPage3.next_page = none)⟩
    (by decide)

/-- Claim C7: deny-list filtering is prefix matching on the full string —
an image survives the reconcilers exactly when it is a registry image,
absent from the depot, and starts with no deny-list entry; in particular
the entry `foo` excludes `foo:1` and `foobar:2` but not `barfoo:1`. -/
theorem claim7_denylist_prefix_semantics :
    (∀ quay sing deny img,
      (img ∈ PopulateBuild.get_new_images quay sing deny ↔
        img ∈ quay ∧ img ∉ sing ∧ ∀ e ∈ deny, startswith img e = false) ∧
      (img ∈ GetContainerList.get_new_images quay sing deny ↔
        img ∈ quay ∧ img ∉ sing ∧ ∀ e ∈ deny, startswith img e = false)) ∧
    PopulateBuild.get_new_images ["foo:1", "foobar:2", "barfoo:1"] [] ["foo"] =
      ["barfoo:1"] ∧
    GetContainerList.get_new_images ["foo:1", "foobar:2", "barfoo:1"] [] ["foo"] =
      ["barfoo:1"] ∧
    startswith "foo:1" "foo" = true ∧
    startswith "foobar:2" "foo" = true ∧
    startswith "barfoo:1" "foo" = false := by
  refine ⟨fun quay sing deny img => ⟨mem_pb_get_new_images, mem_gcl_get_new_images⟩,
    by decide, by decide, by decide, by decide, by decide⟩

/-- Witness for C7: the membership characterization at a concrete input. -/
theorem claim7_denylist_prefix_semantics_witness :
    "barfoo:1" ∈ PopulateBuild.get_new_images ["foo:1", "barfoo:1"] [] ["foo"] ↔
      "barfoo:1" ∈ ["foo:1", "barfoo:1"] ∧ "barfoo:1" ∉ ([] : List String) ∧
      ∀ e ∈ (["foo"] : List String), startswith "barfoo:1" e = false :=
  (claim7_denylist_prefix_semantics.1 ["foo:1", "barfoo:1"] [] ["foo"] "barfoo:1").1

/-- Claim C8 counterexample: `populate_build.py`'s `get_new_images`
performs I/O — it writes the intermediate sorted difference to its log
file on every call. -/
theorem claim8_reconciler_io_counterexample :
    (PopulateBuild.get_new_images_run ["samtools:1.9"] [] [] ".diff.log").writes =
      [(".diff.log", ["samtools:1.9"])] ∧
    (PopulateBuild.get_new_images_run ["samtools:1.9"] [] [] ".diff.log").writes ≠
      [] := by
  decide

/-- Claim C8 as amended: the list returned by `populate_build.py`'s
reconciler is a deterministic function of the three inventories alone —
identical inputs give identical lists whatever the log path — and
`get_container_list.py`'s reconciler is a pure expression of its three
inputs; but `populate_build.py`'s reconciler additionally writes the
intermediate sorted difference to its log file. -/
theorem claim8_reconciler_determinism_amended
    (quay sing deny : List String) (lf lf' : String) :
    (PopulateBuild.get_new_images_run quay sing deny lf).images =
      (PopulateBuild.get_new_images_run quay sing deny lf').images ∧
    (PopulateBuild.get_new_images_run quay sing deny lf).writes =
      [(lf, sortStr ((quay.dedup).filter (fun i => i ∉ sing)))] ∧
    GetContainerList.get_new_images quay sing deny =
      sortStr (((quay.dedup).filter (fun i => i ∉ sing)).filter
        (fun image => !(deny.any (fun entry => startswith image entry)))) :=
  ⟨rfl, rfl, rfl⟩

/-- Claim C9: every element of the reconcilers' output comes from the
registry inventory argument — the build plan invents no image. -/
theorem claim9_output_subset_registry (quay sing deny : List String)
    (img : String) :
    (img ∈ PopulateBuild.get_new_images quay sing deny → img ∈ quay) ∧
    (img ∈ GetContainerList.get_new_images quay sing deny → img ∈ quay) :=
  ⟨fun h => (mem_pb_get_new_images.mp h).1,
   fun h => (mem_gcl_get_new_images.mp h).1⟩

/-- Witness for C9 at a concrete input. -/
theorem claim9_output_subset_registry_witness :
    "samtools:1.9" ∈ ["samtools:1.9"] :=
  (claim9_output_subset_registry ["samtools:1.9"] [] [] "samtools:1.9").1
    (by decide)

/-- Claim C10 counterexample: the directory entries `pkg--h1_00` and
`pkg--h2_1` parse to the duplicate-free group `[("h1", 0), ("h2", 1)]`
(Python `int("00")` is `0`), so the claim requires the non-maximal entry
`("h1", 0)` to be emitted; but its reconstructed name `pkg--h1_0`
differs from the listed entry, fails the `os.path.exists` check against
the very listing that produced it, and the script exits via `sys.exit`
emitting nothing. -/
theorem claim10_old_builds_counterexample :
    RemoveOldBuilds.processGroup
        (fun name => name == "pkg--h1_00" || name == "pkg--h2_1") "pkg"
        [("h1", 0), ("h2", 1)] = none ∧
    RemoveOldBuilds.processGroup
        (fun name => name == "pkg--h1_00" || name == "pkg--h2_1") "pkg"
        [("h1", 0), ("h2", 1)] ≠ some ["pkg--h1_0"] ∧
    RemoveOldBuilds.retainedBuild [("h1", (0 : Int)), ("h2", 1)] =
      some ("h2", 1) := by
  decide

/-- Claim C10 as amended: for a duplicate-free nonempty group of parsed
`(build_string, build_number)` entries, the retained entry is the
group's maximum under the `(build_number, build_string)` order and one
entry always remains; provided every other entry's reconstructed name
passes the `os.path.exists` check, the loop emits exactly those
reconstructed names (the other entries, in sorted order); when a
reconstructed name fails the check the script instead exits without
emitting the remainder. -/
theorem claim10_old_builds_amended (fs : String → Bool) (k : String)
    (v : List (String × Int)) (hne : v ≠ []) (hnd : v.Nodup)
    (hfs : ∀ x ∈ (RemoveOldBuilds.sortBuilds v).dropLast,
      fs (RemoveOldBuilds.reconstructName k x) = true) :
    ∃ m, RemoveOldBuilds.retainedBuild v = some m ∧ m ∈ v ∧
      (∀ x ∈ v, RemoveOldBuilds.BuildLe x m) ∧
      RemoveOldBuilds.processGroup fs k v =
        some (((RemoveOldBuilds.sortBuilds v).dropLast).map
          (RemoveOldBuilds.reconstructName k)) ∧
      ((RemoveOldBuilds.sortBuilds v).dropLast).Nodup ∧
      (∀ x, x ∈ (RemoveOldBuilds.sortBuilds v).dropLast ↔ x ∈ v ∧ x ≠ m) ∧
      ((RemoveOldBuilds.sortBuilds v).dropLast).length + 1 = v.length := by
  obtain ⟨m, h1, h2, h3, h4, h5, h6⟩ :=
    sorted_last_spec v (RemoveOldBuilds.sortBuilds v) (sortBuilds_perm v)
      (sortBuilds_sorted v) hnd hne
  refine ⟨m, h1, h2, h3, ?_, h4, h5, h6⟩
  unfold RemoveOldBuilds.processGroup
  rw [if_neg hne, emitGroup_all_exist fs k _ [] hfs]
  simp

/-- Witness for C10 as amended, at a concrete group of two builds whose
reconstructed candidate name exists. -/
theorem claim10_old_builds_amended_witness :
    ∃ m, RemoveOldBuilds.retainedBuild [("h1", (0 : Int)), ("h2", 1)] = some m ∧
      m ∈ [("h1", (0 : Int)), ("h2", 1)] ∧
      (∀ x ∈ [("h1", (0 : Int)), ("h2", 1)], RemoveOldBuilds.BuildLe x m) ∧
      RemoveOldBuilds.processGroup (fun name => name == "pkg--h1_0") "pkg"
          [("h1", (0 : Int)), ("h2", 1)] =
        some (((RemoveOldBuilds.sortBuilds
            [("h1", (0 : Int)), ("h2", 1)]).dropLast).map
          (RemoveOldBuilds.reconstructName "pkg")) ∧
      ((RemoveOldBuilds.sortBuilds [("h1", (0 : Int)), ("h2", 1)]).dropLast).Nodup ∧
      (∀ x, x ∈ (RemoveOldBuilds.sortBuilds
          [("h1", (0 : Int)), ("h2", 1)]).dropLast ↔
        x ∈ [("h1", (0 : Int)), ("h2", 1)] ∧ x ≠ m) ∧
      ((RemoveOldBuilds.sortBuilds
          [("h1", (0 : Int)), ("h2", 1)]).dropLast).length + 1 =
        [("h1", (0 : Int)), ("h2", 1)].length :=
  claim10_old_builds_amended (fun name => name == "pkg--h1_0") "pkg"
    [("h1", (0 : Int)), ("h2", 1)] (by decide) (by decide) (by decide)
